import Mathlib

/-!
Verification of the video-render export pipeline.

This file gives a shallow embedding of the core export pipeline of the
repository (frame capture, placeholder fallback, static entry server,
frame-sequence comparison, release-manifest building, protocol-timeout
resolution) and proves the spec claims about it.

Modelling conventions:
* filesystem paths handled by the static server and the manifest builder are
  represented as lists of path segments (one entry per component of the
  already-resolved absolute path); `path.resolve` on such a representation is
  segment normalisation;
* the abstract filesystem is a function from segment paths to an entry kind;
* JavaScript strings are Lean `String`s; regular expression tests used by the
  source are embedded as executable character-list scanners with the same
  acceptance behaviour on the tested messages;
* asynchronous I/O actions (stat, read, write, copy) are recorded in explicit
  access/write logs so that claims about "no filesystem access" and "writes
  one file then copies it" can be stated;
* JavaScript numbers are `Nat`/`Int` (the quantities involved are integral);
  the comparator's mismatch ratio is represented as `ℚ`.
-/

/-! ### Small string helpers (JS built-ins used by the source) -/

/-- JS `String.prototype.padStart(targetLength, fillChar)`: left-pad with the
fill character up to the target length (unchanged when already long enough). -/
def padStart (s : String) (targetLength : Nat) (fillChar : Char) : String :=
  if targetLength ≤ s.length then s
  else String.mk (List.replicate (targetLength - s.length) fillChar) ++ s

/-- Lower-cased character list of a string (for case-insensitive `/.../i`
regex tests, which the source performs on ASCII patterns). -/
def lowerChars (s : String) : List Char :=
  s.data.map Char.toLower

/-- Substring scan on character lists (`needle` occurs somewhere in `hay`). -/
def charsContain (needle : List Char) : List Char → Bool
  | [] => needle.isEmpty
  | c :: rest => needle.isPrefixOf (c :: rest) || charsContain needle rest

/-- Case-insensitive substring test: embedding of an unanchored
`/literal/i.test(message)` regex test. -/
def containsCI (message pattern : String) : Bool :=
  charsContain (lowerChars pattern) (lowerChars message)

/-- Case-sensitive substring test: embedding of
`message.includes(pattern)`. -/
def containsCS (message pattern : String) : Bool :=
  charsContain pattern.data message.data

/-! ### C1: frame capture loop (`renderWithProfile` / `renderWithHeadless`)

Both capture loops (`renderWithProfile` in the offline renderer and
`renderWithHeadless` in `packages/export/src/index.ts`) run
`for (let frame = 0; frame < totalFrames; frame++)` and push
`{ frame, path: join(outDir, `frame-${frame.toString().padStart(5, "0")}.png`) }`.
-/

/-- `FrameRenderResult` from the source: one captured frame. -/
structure FrameRecord where
  frame : Nat
  path : String
deriving DecidableEq, Repr

/-- The screenshot filename `frame-${frame.toString().padStart(5, "0")}.png`. -/
def frameFileName (frame : Nat) : String :=
  "frame-" ++ padStart (Nat.repr frame) 5 '0' ++ ".png"

/-- `path.join(dir, file)` for a directory without a trailing separator. -/
def joinPath (dir file : String) : String :=
  dir ++ "/" ++ file

/-- The FrameRecord list produced by the sequential capture loop of
`renderWithProfile` (and `renderWithHeadless`): one record per frame index
`0 .. totalFrames - 1`, in loop order. -/
def captureFrames (outDir : String) (totalFrames : Nat) : List FrameRecord :=
  (List.range totalFrames).map
    (fun frame => ⟨frame, joinPath outDir (frameFileName frame)⟩)

/-! ### Placeholder frame generation (`renderPlaceholderFrames`) -/

/-- Decoded PNG contents as the comparator and the placeholder generator see
them: dimensions plus the flat RGBA byte array. -/
structure PngImage where
  width : Nat
  height : Nat
  data : List Nat
deriving DecidableEq, Repr

/-- `primaryColor` from `renderPlaceholderFrames`: `(index * 97) & 0xff`. -/
def primaryColor (index : Nat) : Nat :=
  (index * 97) % 256

/-- The single solid-colour placeholder image: a `new PNG({width, height})`
whose every pixel is set to RGBA `(primaryColor 1, primaryColor 2,
primaryColor 3, 255)` by the fill loop. -/
def placeholderPng (width height : Nat) : PngImage :=
  ⟨width, height,
    (List.replicate (width * height)
      [primaryColor 1, primaryColor 2, primaryColor 3, 255]).flatten⟩

/-- File-producing actions performed by `renderPlaceholderFrames`: packing the
synthesised PNG to a path, or `copyFile src dst`. -/
inductive PlaceholderWrite where
  | pngWrite (path : String) (image : PngImage)
  | copy (src : String) (dst : String)
deriving DecidableEq, Repr

/-- `renderPlaceholderFrames`: for `totalFrames ≤ 0` nothing is produced;
otherwise one placeholder PNG is packed to `frame-00000.png` and copied to
every remaining index `1 .. totalFrames - 1`.  Returns the FrameRecord list
and the write log, in the order the source performs them. -/
def renderPlaceholderFrames (outDir : String) (totalFrames : Int)
    (width height : Nat) : List FrameRecord × List PlaceholderWrite :=
  if totalFrames ≤ 0 then ([], [])
  else
    let basePath := joinPath outDir "frame-00000.png"
    let rest := List.range' 1 (totalFrames.toNat - 1)
    (⟨0, basePath⟩ :: rest.map (fun frame => ⟨frame, joinPath outDir (frameFileName frame)⟩),
      PlaceholderWrite.pngWrite basePath (placeholderPng width height)
        :: rest.map (fun frame => PlaceholderWrite.copy basePath (joinPath outDir (frameFileName frame))))

/-! ### C1 theorems -/

/-- Padding to width 5 yields a string of length `max 5 (length s)`. -/
theorem padStart_length (s : String) (n : Nat) (c : Char) :
    (padStart s n c).length = max n s.length := by
  unfold padStart
  split
  · omega
  · rw [String.length_append]
    have : (String.mk (List.replicate (n - s.length) c)).length = n - s.length := by
      show (List.replicate (n - s.length) c).length = n - s.length
      exact List.length_replicate _ _
    omega

/-- C1: for every frame count `N ≥ 0`, a successful capture
(`renderWithProfile` / `renderWithHeadless`, and equally the placeholder
path) returns exactly `N` FrameRecords whose indices are `0 .. N-1` in
strictly increasing order, and the path of the record with index `i` is
`outDir` joined with `frame-` followed by `i` zero-padded to width 5
followed by `.png`. -/
theorem capture_frame_records_complete (outDir : String) (N width height : Nat) :
    (captureFrames outDir N).length = N
    ∧ (captureFrames outDir N).map FrameRecord.frame = List.range N
    ∧ List.Pairwise (fun a b => a.frame < b.frame) (captureFrames outDir N)
    ∧ (∀ r ∈ captureFrames outDir N,
        r.path = joinPath outDir ("frame-" ++ padStart (Nat.repr r.frame) 5 '0' ++ ".png"))
    ∧ (∀ r ∈ captureFrames outDir N, 5 ≤ (padStart (Nat.repr r.frame) 5 '0').length)
    ∧ (renderPlaceholderFrames outDir (N : Int) width height).1 = captureFrames outDir N := by
  refine ⟨by simp [captureFrames], ?_, ?_, ?_, ?_, ?_⟩
  · rw [captureFrames, List.map_map]
    have hID : (FrameRecord.frame ∘ fun frame =>
        (⟨frame, joinPath outDir (frameFileName frame)⟩ : FrameRecord)) = id := rfl
    rw [hID, List.map_id]
  · rw [captureFrames, List.pairwise_map]
    simpa using List.pairwise_lt_range N
  · intro r hr
    simp only [captureFrames, List.mem_map, List.mem_range] at hr
    obtain ⟨i, _, rfl⟩ := hr
    rfl
  · intro r _
    rw [padStart_length]
    omega
  · cases N with
    | zero => rfl
    | succ n =>
      rw [renderPlaceholderFrames, if_neg (by omega)]
      have h0 : frameFileName 0 = "frame-00000.png" := by decide
      simp only [captureFrames, List.range_eq_range', List.range'_succ, List.map_cons,
        Int.toNat_natCast, Nat.add_sub_cancel]
      rw [← h0]

/-- Witness for C1 at `outDir = "out"`, `N = 3`. -/
theorem capture_frame_records_complete_witness :
    (⟨2, "out/frame-00002.png"⟩ : FrameRecord) ∈ captureFrames "out" 3
    ∧ (⟨2, "out/frame-00002.png"⟩ : FrameRecord).path
        = joinPath "out" ("frame-" ++ padStart (Nat.repr 2) 5 '0' ++ ".png") :=
  ⟨by decide, (capture_frame_records_complete "out" 3 1 1).2.2.2.1 _ (by decide)⟩

/-! ### Error classifiers (`shouldFallbackToPlaceholderFrames`,
`isRecoverableShellError`, `isRendererAutoDetectIssue`) -/

/-- The literal head of `MISSING_SHARED_LIBRARY_REGEX`
(`error while loading shared libraries:`), lower-cased. -/
def sharedLibHead : List Char :=
  "error while loading shared libraries:".data

/-- The literal tail of `MISSING_SHARED_LIBRARY_REGEX`
(` cannot open shared object file`), lower-cased. -/
def sharedLibTail : List Char :=
  " cannot open shared object file".data

/-- After the literal head the regex requires `\s*([^:]+):` followed by the
literal tail: some whitespace, a nonempty colon-free library name, a colon,
then the tail.  Because `[^:]` cannot match a colon, the group necessarily
ends at the first colon after the head, so a single scan decides a match. -/
def sharedLibAfterHead (cs : List Char) : Bool :=
  let afterWs := cs.dropWhile Char.isWhitespace
  let libName := afterWs.takeWhile (fun ch => ch ≠ ':')
  let rest := afterWs.dropWhile (fun ch => ch ≠ ':')
  !libName.isEmpty && (':' :: sharedLibTail).isPrefixOf rest

/-- Scan for an occurrence of `MISSING_SHARED_LIBRARY_REGEX` (the input is
already lower-cased, matching the regex's `i` flag). -/
def sharedLibScan : List Char → Bool
  | [] => false
  | c :: rest =>
    (sharedLibHead.isPrefixOf (c :: rest)
      && sharedLibAfterHead ((c :: rest).drop sharedLibHead.length))
    || sharedLibScan rest

/-- `extractMissingSharedLibraries(error).length > 0` as a test on the error
message: does `MISSING_SHARED_LIBRARY_REGEX` match anywhere? -/
def missingSharedLibraryMatch (message : String) : Bool :=
  sharedLibScan (lowerChars message)

/-- `shouldFallbackToPlaceholderFrames`: an error is a native-dependency
failure when its message matches the missing-shared-library pattern,
`/undefined symbol:/i`, or `/Inconsistency detected by ld\.so/i`. -/
def shouldFallbackToPlaceholderFrames (message : String) : Bool :=
  missingSharedLibraryMatch message
  || containsCI message "undefined symbol:"
  || containsCI message "Inconsistency detected by ld.so"

/-- `isRecoverableShellError` (offline renderer variant, including
`Log.enable`). -/
def isRecoverableShellError (message : String) : Bool :=
  containsCI message "Network.enable timed out"
  || containsCI message "Page.addScriptToEvaluateOnNewDocument timed out"
  || containsCI message "Performance.enable timed out"
  || containsCI message "Failed to launch the browser process"
  || containsCI message "Log.enable timed out"

/-- `isRendererAutoDetectIssue`: `/Unable to auto-detect a suitable
renderer/i.test(error.message)`. -/
def isRendererAutoDetectIssue (message : String) : Bool :=
  containsCI message "Unable to auto-detect a suitable renderer"

/-! ### Launch profiles and headless modes -/

/-- The puppeteer `headless` option values used by the source: `"shell"`,
`true`, `false`. -/
inductive HeadlessMode where
  | shell
  | modeTrue
  | modeFalse
deriving DecidableEq, Repr

/-- `describeHeadless` (the `null` case cannot arise: the source always
passes one of the three concrete values). -/
def describeHeadless : HeadlessMode → String
  | .modeTrue => "true"
  | .modeFalse => "false"
  | .shell => "shell"

/-- A Chromium launch profile: description, flags, optional list of default
flags to suppress. -/
structure LaunchProfile where
  description : String
  args : List String
  ignoreDefaultArgs : Option (List String)
deriving DecidableEq, Repr

/-- `buildLaunchProfiles`: the fixed ordered profile list — GPU-accelerated
ANGLE OpenGL, then SwiftShader GPU emulation, then the pure-software
fallback. -/
def buildLaunchProfiles (headless : HeadlessMode) : List LaunchProfile :=
  let baseArgs :=
    (if headless = HeadlessMode.shell ∨ headless = HeadlessMode.modeFalse
      then [] else ["--headless=new"])
    ++ ["--autoplay-policy=no-user-gesture-required", "--disable-dev-shm-usage"]
  let gpuArgs := ["--enable-gpu", "--ignore-gpu-blocklist", "--enable-webgl",
    "--enable-webgl2", "--enable-accelerated-2d-canvas"]
  let gpuDefaultArgBlocklist := ["--disable-gpu", "--disable-software-rasterizer"]
  [ ⟨"ANGLE OpenGL", baseArgs ++ gpuArgs ++ ["--use-gl=angle", "--use-angle=opengl"],
      some gpuDefaultArgBlocklist⟩,
    ⟨"SwiftShader", baseArgs ++ gpuArgs ++ ["--use-gl=swiftshader", "--use-angle=swiftshader"],
      some gpuDefaultArgBlocklist⟩,
    ⟨"Software fallback", baseArgs ++ ["--disable-gpu", "--use-gl=swiftshader"], none⟩ ]

/-- `annotateLaunchProfileFailure`: prefix the message with the profile
context unless it is already present (`error.message.includes(context)`). -/
def annotateLaunchProfileFailure (message : String) (profile : LaunchProfile)
    (headless : HeadlessMode) : String :=
  let context := "Chromium launch profile \"" ++ profile.description
    ++ "\" (headless=" ++ describeHeadless headless ++ ")"
  if containsCS message context then message else context ++ ": " ++ message

/-- The `for (const profile of launchProfiles)` loop of `renderWithHeadless`:
try each profile with `renderWithProfile` (abstracted as `render`); a failure
that is not a renderer auto-detect issue is rethrown immediately; an
auto-detect failure on the last profile (`rest = []`) is rethrown; otherwise
the next profile is tried.  (The empty-list case mirrors the unreachable
fall-through after the loop.) -/
def tryLaunchProfiles (render : LaunchProfile → Except String (List FrameRecord))
    (headless : HeadlessMode) : List LaunchProfile → Except String (List FrameRecord)
  | [] => Except.error "Offline render failed to initialize a renderer"
  | profile :: rest =>
    match render profile with
    | .ok frames => .ok frames
    | .error e =>
      let annotated := annotateLaunchProfileFailure e profile headless
      if !isRendererAutoDetectIssue annotated then .error annotated
      else if rest.isEmpty then .error annotated
      else tryLaunchProfiles render headless rest

/-! ### Headless-mode loop and placeholder fallback
(`renderDeterministicFrames`, offline renderer variant) -/

/-- The `for (const [index, headless] of headlessPreferences.entries())` loop
of `renderDeterministicFrames`.  `attempt` abstracts `renderWithHeadless` for
one mode.  Returns the loop result together with the list of modes actually
attempted, in order.  A native-dependency failure is rethrown at once; a
recoverable shell error with a next preference continues; any other failure
breaks and the last error is thrown. -/
def attemptModes (attempt : HeadlessMode → Except String (List FrameRecord)) :
    List HeadlessMode → Except String (List FrameRecord) × List HeadlessMode
  | [] => (Except.error "Offline render failed", [])
  | m :: rest =>
    match attempt m with
    | .ok frames => (.ok frames, [m])
    | .error e =>
      if shouldFallbackToPlaceholderFrames e then (.error e, [m])
      else if m = HeadlessMode.shell ∧ rest ≠ [] ∧ isRecoverableShellError e then
        let r := attemptModes attempt rest
        (r.1, m :: r.2)
      else (.error e, [m])

/-- `renderDeterministicFrames` (offline renderer variant): run the
headless-mode loop; if the escaped error is recognised as a
native-dependency failure, fall back to `renderPlaceholderFrames`, otherwise
rethrow.  Returns the result and the attempted-mode trace. -/
def renderDeterministicFrames (attempt : HeadlessMode → Except String (List FrameRecord))
    (prefs : List HeadlessMode) (outDir : String) (totalFrames : Int)
    (width height : Nat) : Except String (List FrameRecord) × List HeadlessMode :=
  match attemptModes attempt prefs with
  | (.ok frames, trace) => (.ok frames, trace)
  | (.error e, trace) =>
    if shouldFallbackToPlaceholderFrames e then
      (.ok (renderPlaceholderFrames outDir totalFrames width height).1, trace)
    else (.error e, trace)

/-! ### C7 theorem -/

/-- C7: within one headless-mode attempt the launch profiles are tried in
their fixed order (ANGLE OpenGL, SwiftShader, software fallback); a profile
failure in the renderer-auto-detect class advances to the next profile, any
other failure aborts the whole mode attempt immediately with that error, and
an auto-detect failure on the last profile surfaces that last error. -/
theorem launch_profile_fallback_policy :
    (∀ headless, (buildLaunchProfiles headless).map LaunchProfile.description
        = ["ANGLE OpenGL", "SwiftShader", "Software fallback"])
    ∧ (∀ render headless profile rest e, render profile = Except.error e →
        isRendererAutoDetectIssue (annotateLaunchProfileFailure e profile headless) = false →
        tryLaunchProfiles render headless (profile :: rest)
          = Except.error (annotateLaunchProfileFailure e profile headless))
    ∧ (∀ render headless profile rest e, render profile = Except.error e →
        isRendererAutoDetectIssue (annotateLaunchProfileFailure e profile headless) = true →
        rest ≠ [] →
        tryLaunchProfiles render headless (profile :: rest)
          = tryLaunchProfiles render headless rest)
    ∧ (∀ render headless profile e, render profile = Except.error e →
        isRendererAutoDetectIssue (annotateLaunchProfileFailure e profile headless) = true →
        tryLaunchProfiles render headless [profile]
          = Except.error (annotateLaunchProfileFailure e profile headless)) := by
  refine ⟨?_, ?_, ?_, ?_⟩
  · intro headless
    rfl
  · intro render headless profile rest e he hcls
    simp [tryLaunchProfiles, he, hcls]
  · intro render headless profile rest e he hcls hne
    simp [tryLaunchProfiles, he, hcls, hne]
  · intro render headless profile e he hcls
    simp [tryLaunchProfiles, he, hcls]

/-- Witness for C7: a non-auto-detect failure on the first profile aborts
the whole attempt at once. -/
theorem launch_profile_fallback_policy_witness :
    ((fun _ : LaunchProfile => (Except.error "boom" : Except String (List FrameRecord)))
        (⟨"P", [], none⟩ : LaunchProfile) = Except.error "boom")
    ∧ isRendererAutoDetectIssue
        (annotateLaunchProfileFailure "boom" ⟨"P", [], none⟩ HeadlessMode.shell) = false
    ∧ tryLaunchProfiles (fun _ => Except.error "boom") HeadlessMode.shell
        [⟨"P", [], none⟩, ⟨"Q", [], none⟩]
      = Except.error (annotateLaunchProfileFailure "boom" ⟨"P", [], none⟩ HeadlessMode.shell) :=
  ⟨rfl, by decide,
    launch_profile_fallback_policy.2.1 (fun _ => Except.error "boom") HeadlessMode.shell
      ⟨"P", [], none⟩ [⟨"Q", [], none⟩] "boom" rfl (by decide)⟩

/-! ### C6 theorem -/

/-- The headless-mode loop stops at the first native-dependency failure,
having attempted exactly the modes before it plus that one. -/
theorem attemptModes_stops_at_native_failure
    (attempt : HeadlessMode → Except String (List FrameRecord))
    (p : HeadlessMode) (rest : List HeadlessMode) (e : String)
    (hp : attempt p = Except.error e)
    (hf : shouldFallbackToPlaceholderFrames e = true) :
    ∀ pre : List HeadlessMode,
      (∀ m ∈ pre, m = HeadlessMode.shell ∧ ∃ em, attempt m = Except.error em
        ∧ shouldFallbackToPlaceholderFrames em = false
        ∧ isRecoverableShellError em = true) →
      attemptModes attempt (pre ++ p :: rest) = (Except.error e, pre ++ [p]) := by
  intro pre
  induction pre with
  | nil =>
    intro _
    simp [attemptModes, hp, hf]
  | cons m pre ih =>
    intro hpre
    obtain ⟨hm, em, hem, hnf, hrec⟩ := hpre m (List.mem_cons_self m pre)
    subst hm
    have hrest : attemptModes attempt (pre ++ p :: rest) = (Except.error e, pre ++ [p]) :=
      ih (fun m hm => hpre m (List.mem_cons_of_mem _ hm))
    simp [attemptModes, hem, hnf, hrec, hrest]

/-- C6: a browser attempt failing with a native-dependency error (missing
shared library, `undefined symbol:`, or an `ld.so` inconsistency) ends all
browser attempts, and `renderDeterministicFrames` instead returns the
placeholder frames: exactly one solid-colour PNG of the requested dimensions
is written as `frame-00000.png` and copied to every remaining index
`1 .. N-1`, giving exactly `N` FrameRecords (and the empty list when
`N ≤ 0`). -/
theorem native_failure_placeholder_fallback
    (attempt : HeadlessMode → Except String (List FrameRecord))
    (pre : List HeadlessMode) (p : HeadlessMode) (rest : List HeadlessMode)
    (outDir : String) (totalFrames : Int) (width height : Nat) (e : String)
    (hpre : ∀ m ∈ pre, m = HeadlessMode.shell ∧ ∃ em, attempt m = Except.error em
        ∧ shouldFallbackToPlaceholderFrames em = false
        ∧ isRecoverableShellError em = true)
    (hp : attempt p = Except.error e)
    (hf : shouldFallbackToPlaceholderFrames e = true) :
    renderDeterministicFrames attempt (pre ++ p :: rest) outDir totalFrames width height
      = (Except.ok (renderPlaceholderFrames outDir totalFrames width height).1, pre ++ [p])
    ∧ ((renderPlaceholderFrames outDir totalFrames width height).1).length = totalFrames.toNat
    ∧ (totalFrames ≤ 0 → renderPlaceholderFrames outDir totalFrames width height = ([], []))
    ∧ (1 ≤ totalFrames →
        (renderPlaceholderFrames outDir totalFrames width height).2
          = PlaceholderWrite.pngWrite (joinPath outDir "frame-00000.png")
              (placeholderPng width height)
            :: (List.range' 1 (totalFrames.toNat - 1)).map (fun frame =>
                 PlaceholderWrite.copy (joinPath outDir "frame-00000.png")
                   (joinPath outDir (frameFileName frame))))
    ∧ (placeholderPng width height).width = width
    ∧ (placeholderPng width height).height = height := by
  refine ⟨?_, ?_, ?_, ?_, rfl, rfl⟩
  · have hloop := attemptModes_stops_at_native_failure attempt p rest e hp hf pre hpre
    rw [renderDeterministicFrames, hloop]
    simp [hf]
  · rw [renderPlaceholderFrames]
    split
    · next h => simp; omega
    · next h => simp; omega
  · intro h
    rw [renderPlaceholderFrames, if_pos h]
  · intro h
    rw [renderPlaceholderFrames, if_neg (by omega)]

/-- Witness for C6: a recoverable shell failure followed by an
`undefined symbol:` failure falls back to placeholder frames after exactly
those two attempts. -/
theorem native_failure_placeholder_fallback_witness :
    ((fun m => match m with
        | HeadlessMode.shell =>
            (Except.error "Network.enable timed out" : Except String (List FrameRecord))
        | _ => Except.error "undefined symbol: gbm") HeadlessMode.modeTrue
      = Except.error "undefined symbol: gbm")
    ∧ shouldFallbackToPlaceholderFrames "undefined symbol: gbm" = true
    ∧ renderDeterministicFrames
        (fun m => match m with
          | HeadlessMode.shell =>
              (Except.error "Network.enable timed out" : Except String (List FrameRecord))
          | _ => Except.error "undefined symbol: gbm")
        [HeadlessMode.shell, HeadlessMode.modeTrue] "out" 2 1 1
      = (Except.ok (renderPlaceholderFrames "out" 2 1 1).1,
          [HeadlessMode.shell, HeadlessMode.modeTrue]) := by
  refine ⟨rfl, by decide, ?_⟩
  exact (native_failure_placeholder_fallback
    (fun m => match m with
      | HeadlessMode.shell =>
          (Except.error "Network.enable timed out" : Except String (List FrameRecord))
      | _ => Except.error "undefined symbol: gbm")
    [HeadlessMode.shell] HeadlessMode.modeTrue [] "out" 2 1 1 "undefined symbol: gbm"
    (by
      intro m hm
      simp only [List.mem_singleton] at hm
      subst hm
      exact ⟨rfl, "Network.enable timed out", rfl, by decide, by decide⟩)
    rfl (by decide)).1

/-! ### Protocol timeout resolution (`resolveProtocolTimeout`) -/

/-- Digit accumulation for `parseIntJs`. -/
def digitsVal (ds : List Char) : Nat :=
  ds.foldl (fun acc c => acc * 10 + (c.toNat - 48)) 0

/-- `Number.parseInt(raw, 10)`: skip leading whitespace, an optional sign,
then a maximal run of decimal digits; `none` models `NaN` (no digits).
(JS float precision on astronomically long digit runs is out of scope.) -/
def parseIntJs (s : String) : Option Int :=
  let cs := s.data.dropWhile Char.isWhitespace
  let signed : Int × List Char :=
    match cs with
    | '-' :: t => (-1, t)
    | '+' :: t => (1, t)
    | _ => (1, cs)
  let ds := signed.2.takeWhile Char.isDigit
  if ds.isEmpty then none else some (signed.1 * (digitsVal ds : Int))

/-- `DEFAULT_PROTOCOL_TIMEOUT_MS = 120_000`. -/
def DEFAULT_PROTOCOL_TIMEOUT_MS : Int := 120000

/-- The module-level mutable state consulted by `resolveProtocolTimeout`:
`cachedProtocolTimeout` and `warnedProtocolTimeout`. -/
structure TimeoutState where
  cachedProtocolTimeout : Option Int
  warnedProtocolTimeout : Bool
deriving DecidableEq, Repr

/-- Module state at process start. -/
def initialTimeoutState : TimeoutState :=
  ⟨none, false⟩

/-- Result of one `resolveProtocolTimeout()` call: returned value, updated
module state, and whether the invalid-value warning was printed by this
call. -/
structure ResolveOutcome where
  value : Int
  state : TimeoutState
  warnedNow : Bool
deriving DecidableEq, Repr

/-- `resolveProtocolTimeout`, with `process.env.VIS_PROTOCOL_TIMEOUT`
passed explicitly (`none` = unset) and the module state threaded through.
A cached value short-circuits; a truthy raw value parsing to a positive
integer is cached and returned; otherwise the one-time warning may fire and
the default is cached and returned. -/
def resolveProtocolTimeout (env : Option String) (st : TimeoutState) : ResolveOutcome :=
  match st.cachedProtocolTimeout with
  | some v => ⟨v, st, false⟩
  | none =>
    let useDefault : ResolveOutcome :=
      ⟨DEFAULT_PROTOCOL_TIMEOUT_MS,
        ⟨some DEFAULT_PROTOCOL_TIMEOUT_MS, st.warnedProtocolTimeout⟩, false⟩
    let warnAndDefault : ResolveOutcome :=
      ⟨DEFAULT_PROTOCOL_TIMEOUT_MS, ⟨some DEFAULT_PROTOCOL_TIMEOUT_MS, true⟩,
        !st.warnedProtocolTimeout⟩
    match env with
    | none => useDefault
    | some raw =>
      if raw = "" then useDefault
      else
        match parseIntJs raw with
        | some parsed =>
          if 0 < parsed then ⟨parsed, ⟨some parsed, st.warnedProtocolTimeout⟩, false⟩
          else warnAndDefault
        | none => warnAndDefault

/-- Page configuration performed by `renderWithProfile` right after opening
the page. -/
inductive PageOp where
  | setViewport (width height : Nat)
  | setDefaultTimeout (ms : Int)
  | setDefaultNavigationTimeout (ms : Int)
deriving DecidableEq, Repr

/-- The configuration step of `renderWithProfile`: sets the viewport, then
applies the resolved protocol timeout as the page's default timeout and
default navigation timeout. -/
def renderWithProfilePageSetup (width height : Nat) (env : Option String)
    (st : TimeoutState) : List PageOp :=
  let protocolTimeout := (resolveProtocolTimeout env st).value
  [PageOp.setViewport width height,
   PageOp.setDefaultTimeout protocolTimeout,
   PageOp.setDefaultNavigationTimeout protocolTimeout]

/-- A sequence of `resolveProtocolTimeout()` calls in one process, threading
the module state: returns the values in order, the number of warnings
printed, and the final state. -/
def resolveSequence (st : TimeoutState) :
    List (Option String) → List Int × Nat × TimeoutState
  | [] => ([], 0, st)
  | env :: rest =>
    let r := resolveProtocolTimeout env st
    let tail := resolveSequence r.state rest
    (r.value :: tail.1, (if r.warnedNow then 1 else 0) + tail.2.1, tail.2.2)

/-! ### C8 theorem -/

/-- C8: on a first (uncached) resolution, an unset or invalid
`VIS_PROTOCOL_TIMEOUT` yields the default 120000 (warning only for invalid
values, and only if not yet warned), a positive parsed value is returned as
is, and the resolved value is applied as both the page default timeout and
default navigation timeout. -/
theorem resolve_protocol_timeout_spec (env : Option String) (st : TimeoutState)
    (hcache : st.cachedProtocolTimeout = none) :
    ((env = none ∨ env = some "") →
      (resolveProtocolTimeout env st).value = 120000
        ∧ (resolveProtocolTimeout env st).warnedNow = false)
    ∧ (∀ raw parsed, env = some raw → parseIntJs raw = some parsed → 0 < parsed →
        (resolveProtocolTimeout env st).value = parsed
          ∧ (resolveProtocolTimeout env st).warnedNow = false)
    ∧ (∀ raw, env = some raw → raw ≠ "" →
        (parseIntJs raw = none ∨ ∃ parsed, parseIntJs raw = some parsed ∧ ¬ 0 < parsed) →
        (resolveProtocolTimeout env st).value = 120000
          ∧ (resolveProtocolTimeout env st).warnedNow = !st.warnedProtocolTimeout
          ∧ (resolveProtocolTimeout env st).state.warnedProtocolTimeout = true)
    ∧ (∀ width height, renderWithProfilePageSetup width height env st
        = [PageOp.setViewport width height,
           PageOp.setDefaultTimeout (resolveProtocolTimeout env st).value,
           PageOp.setDefaultNavigationTimeout (resolveProtocolTimeout env st).value]) := by
  refine ⟨?_, ?_, ?_, ?_⟩
  · rintro (rfl | rfl) <;>
      simp [resolveProtocolTimeout, hcache, DEFAULT_PROTOCOL_TIMEOUT_MS]
  · rintro raw parsed rfl hparse hpos
    have hraw : raw ≠ "" := by
      intro h
      subst h
      simp [parseIntJs] at hparse
    simp [resolveProtocolTimeout, hcache, hraw, hparse, hpos]
  · rintro raw rfl hraw hbad
    rcases hbad with hnone | ⟨parsed, hparse, hnp⟩
    · simp [resolveProtocolTimeout, hcache, hraw, hnone, DEFAULT_PROTOCOL_TIMEOUT_MS]
    · simp [resolveProtocolTimeout, hcache, hraw, hparse, hnp, DEFAULT_PROTOCOL_TIMEOUT_MS]
  · intro width height
    rfl

/-- Witness for C8: an invalid value (`"abc"`) falls back to the default and
warns once. -/
theorem resolve_protocol_timeout_spec_witness :
    (initialTimeoutState.cachedProtocolTimeout = none)
    ∧ (resolveProtocolTimeout (some "abc") initialTimeoutState).value = 120000
    ∧ (resolveProtocolTimeout (some "abc") initialTimeoutState).warnedNow = true := by
  have h := (resolve_protocol_timeout_spec (some "abc") initialTimeoutState rfl).2.2.1
    "abc" rfl (by decide) (Or.inl (by decide))
  exact ⟨rfl, h.1, by rw [h.2.1]; rfl⟩

/-! ### C10 theorem -/

/-- Once the cache holds a value, every later call returns it unchanged and
never warns. -/
theorem resolveSequence_cached (v : Int) (w : Bool) :
    ∀ envs : List (Option String),
      resolveSequence ⟨some v, w⟩ envs
        = (List.replicate envs.length v, 0, ⟨some v, w⟩) := by
  intro envs
  induction envs with
  | nil => rfl
  | cons env rest ih =>
    simp [resolveSequence, resolveProtocolTimeout, ih, List.replicate_succ]

/-- C10: `resolveProtocolTimeout` is process-sticky — after the first call
the resolved value is cached, every later call in the same process returns
the first call's value regardless of the environment seen then, and the
invalid-value warning fires at most once per process. -/
theorem resolve_protocol_timeout_sticky :
    (∀ env st, (resolveProtocolTimeout env st).state.cachedProtocolTimeout
        = some (resolveProtocolTimeout env st).value)
    ∧ (∀ env env2 st, resolveProtocolTimeout env2 (resolveProtocolTimeout env st).state
        = ⟨(resolveProtocolTimeout env st).value, (resolveProtocolTimeout env st).state, false⟩)
    ∧ (∀ env envs,
        (resolveSequence initialTimeoutState (env :: envs)).1
          = (resolveProtocolTimeout env initialTimeoutState).value
              :: List.replicate envs.length
                  (resolveProtocolTimeout env initialTimeoutState).value
        ∧ (resolveSequence initialTimeoutState (env :: envs)).2.1 ≤ 1) := by
  have hcachedEq : ∀ env st, (resolveProtocolTimeout env st).state
      = ⟨some (resolveProtocolTimeout env st).value,
          (resolveProtocolTimeout env st).state.warnedProtocolTimeout⟩ := by
    intro env st
    rcases st with ⟨cached, warned⟩
    rcases cached with - | v
    · rcases env with - | raw
      · rfl
      · by_cases hraw : raw = ""
        · subst hraw
          rfl
        · rcases hparse : parseIntJs raw with - | parsed
          · simp [resolveProtocolTimeout, hraw, hparse]
          · by_cases hpos : 0 < parsed
            · simp [resolveProtocolTimeout, hraw, hparse, hpos]
            · simp [resolveProtocolTimeout, hraw, hparse, hpos]
    · rfl
  refine ⟨?_, ?_, ?_⟩
  · intro env st
    rw [hcachedEq env st]
  · intro env env2 st
    rw [hcachedEq env st]
    rfl
  · intro env envs
    have hseq : resolveSequence initialTimeoutState (env :: envs)
        = ((resolveProtocolTimeout env initialTimeoutState).value
            :: List.replicate envs.length
                (resolveProtocolTimeout env initialTimeoutState).value,
          (if (resolveProtocolTimeout env initialTimeoutState).warnedNow then 1 else 0) + 0,
          (resolveProtocolTimeout env initialTimeoutState).state) := by
      rw [resolveSequence]
      rw [hcachedEq env initialTimeoutState]
      rw [resolveSequence_cached]
    constructor
    · rw [hseq]
    · rw [hseq]
      split <;> simp

/-! ### Static entry server (`createStaticEntryServer`, `sanitizePathname`,
`stripLineAndColumnSuffix`) -/

/-- `(String.mk cs).length = cs.length`. -/
theorem length_mk (cs : List Char) : (String.mk cs).length = cs.length :=
  rfl

/-- One `(:\d+)` group of `stripLineAndColumnSuffix`'s regex, parsed from the
REVERSED character list: a nonempty digit run followed by a colon; returns
the (reversed) remainder.  Because `\d` cannot match a colon, group
boundaries are forced, so this parse is exact. -/
def parseGroupRev (cs : List Char) : Option (List Char) :=
  if (cs.takeWhile Char.isDigit).isEmpty then none
  else if (cs.dropWhile Char.isDigit).head? = some ':' then
    some (cs.dropWhile Char.isDigit).tail
  else none

/-- A parsed group consumes at least two characters. -/
theorem parseGroupRev_length (cs rest : List Char)
    (h : parseGroupRev cs = some rest) : rest.length + 2 ≤ cs.length := by
  unfold parseGroupRev at h
  by_cases hds : (cs.takeWhile Char.isDigit).isEmpty = true
  · rw [if_pos hds] at h
    exact absurd h (by simp)
  · rw [if_neg hds] at h
    have hsplit := congrArg List.length
      (List.takeWhile_append_dropWhile (p := Char.isDigit) (l := cs))
    rw [List.length_append] at hsplit
    have hone : 1 ≤ (cs.takeWhile Char.isDigit).length := by
      rcases hw : cs.takeWhile Char.isDigit with - | ⟨c, t⟩
      · rw [hw] at hds
        simp at hds
      · simp
    rcases hdrop : cs.dropWhile Char.isDigit with - | ⟨c, rest2⟩ <;> rw [hdrop] at h
    · simp at h
    · by_cases hc : (c :: rest2).head? = some ':'
      · rw [if_pos hc] at h
        have hrest : rest2 = rest := by
          simpa using h
        subst hrest
        rw [hdrop] at hsplit
        simp only [List.length_cons] at hsplit
        omega
      · rw [if_neg hc] at h
        exact absurd h (by simp)

/-- The regex replacement of `stripLineAndColumnSuffix` on the last path
segment: `^(.*?)(:\d+){1,2}$` with a lazy prefix prefers the two-group
suffix when present (minimal prefix), else one group; an empty captured
prefix (falsy `match[1]`) leaves the segment unchanged. -/
def stripLast (s : String) : String :=
  match parseGroupRev s.data.reverse with
  | none => s
  | some r1 =>
    match parseGroupRev r1 with
    | some r2 => if r2.isEmpty then s else String.mk r2.reverse
    | none => if r1.isEmpty then s else String.mk r1.reverse

/-- The strip either leaves the segment unchanged or removes at least two
characters. -/
theorem stripLast_cases (s : String) :
    stripLast s = s ∨ (stripLast s).length + 2 ≤ s.length := by
  have hrev : s.data.reverse.length = s.length := by
    rw [List.length_reverse]
    rfl
  unfold stripLast
  rcases h1 : parseGroupRev s.data.reverse with - | r1
  · exact Or.inl rfl
  · have hl1 := parseGroupRev_length _ _ h1
    show (match parseGroupRev r1 with
        | some r2 => if r2.isEmpty = true then s else String.mk r2.reverse
        | none => if r1.isEmpty = true then s else String.mk r1.reverse) = s ∨
      (match parseGroupRev r1 with
        | some r2 => if r2.isEmpty = true then s else String.mk r2.reverse
        | none => if r1.isEmpty = true then s else String.mk r1.reverse).length + 2 ≤ s.length
    rcases h2 : parseGroupRev r1 with - | r2
    · show (if r1.isEmpty = true then s else String.mk r1.reverse) = s ∨
        (if r1.isEmpty = true then s else String.mk r1.reverse).length + 2 ≤ s.length
      by_cases he : r1.isEmpty = true
      · left
        rw [if_pos he]
      · right
        rw [if_neg he, length_mk, List.length_reverse]
        omega
    · show (if r2.isEmpty = true then s else String.mk r2.reverse) = s ∨
        (if r2.isEmpty = true then s else String.mk r2.reverse).length + 2 ≤ s.length
      have hl2 := parseGroupRev_length _ _ h2
      by_cases he : r2.isEmpty = true
      · left
        rw [if_pos he]
      · right
        rw [if_neg he, length_mk, List.length_reverse]
        omega

/-- A strip that changes the segment strictly shortens it. -/
theorem stripLast_length (s : String) (h : stripLast s ≠ s) :
    (stripLast s).length < s.length := by
  rcases stripLast_cases s with he | hle
  · exact absurd he h
  · omega

/-- `stripLineAndColumnSuffix` acting on the split segment list (the server
loop state `attemptSanitized`, kept in segment form): only the last segment
is rewritten. -/
def stripSegs : List String → List String
  | [] => []
  | seg :: rest =>
    match rest with
    | [] => [stripLast seg]
    | _ :: _ => seg :: stripSegs rest

/-- Accumulator loop for `splitSlash`. -/
def splitOnCharAux (sep : Char) : List Char → List Char → List String
  | [], acc => [String.mk acc.reverse]
  | c :: rest, acc =>
    if c = sep then String.mk acc.reverse :: splitOnCharAux sep rest []
    else splitOnCharAux sep rest (c :: acc)

/-- JS `pathname.split("/")`: split at every `/`, keeping empty pieces. -/
def splitSlash (pathname : String) : List String :=
  splitOnCharAux '/' pathname.data []

/-- `stripLineAndColumnSuffix` itself (string form, as in the source): split
on `/`, strip the last segment, rejoin; unchanged when the regex does not
match or captures an empty prefix. -/
def stripLineAndColumnSuffix (pathname : String) : String :=
  if pathname = "" then pathname
  else
    match (splitSlash pathname).getLast? with
    | none => pathname
    | some last =>
      let stripped := stripLast last
      if stripped = last then pathname
      else String.intercalate "/" ((splitSlash pathname).dropLast ++ [stripped])

/-- Total character count of a segment list (termination measure of the
retry loop: every effective strip shortens the last segment). -/
def sumLen (segs : List String) : Nat :=
  (segs.map String.length).sum

/-- An effective strip strictly decreases the measure. -/
theorem stripSegs_sumLen_lt (segs : List String) (h : stripSegs segs ≠ segs) :
    sumLen (stripSegs segs) < sumLen segs := by
  induction segs with
  | nil => exact absurd rfl h
  | cons seg rest ih =>
    cases rest with
    | nil =>
      have hne : stripLast seg ≠ seg := by
        intro he
        exact h (by simp [stripSegs, he])
      have := stripLast_length seg hne
      simp [stripSegs, sumLen]
      omega
    | cons b r2 =>
      have hs : stripSegs (seg :: b :: r2) = seg :: stripSegs (b :: r2) := rfl
      rw [hs] at h ⊢
      have hne : stripSegs (b :: r2) ≠ b :: r2 := fun he => h (by rw [he])
      have := ih hne
      simp only [sumLen, List.map_cons, List.sum_cons] at this ⊢
      omega

/-- `stripSegs` preserves the number of segments. -/
theorem stripSegs_length (segs : List String) :
    (stripSegs segs).length = segs.length := by
  induction segs with
  | nil => rfl
  | cons seg rest ih =>
    cases rest with
    | nil => rfl
    | cons b r2 =>
      simp only [stripSegs, List.length_cons] at ih ⊢
      omega

/-- `sanitizePathname`'s segment loop: drop empty and `.` segments, reject
(`null`) on any `..` segment, keep the rest in order. -/
def sanitizeSegments : List String → Option (List String)
  | [] => some []
  | seg :: rest =>
    if seg = "" ∨ seg = "." then sanitizeSegments rest
    else if seg = ".." then none
    else (sanitizeSegments rest).map (fun safe => seg :: safe)

/-- `sanitizePathname` (string form): split on `/`, sanitize, rejoin. -/
def sanitizePathname (pathname : String) : Option String :=
  (sanitizeSegments (splitSlash pathname)).map (String.intercalate "/")

/-- What `stat` finds at an absolute path. -/
inductive FsEntry where
  | file
  | dir
  | absent
deriving DecidableEq, Repr

/-- The server's world: the filesystem, the resolved parent directory of the
entry file (`rootDirResolved`, already normalised), and the entry file's
name within it (`resolvedEntry = rootDir ++ [entryName]`). -/
structure ServerCtx where
  fs : List String → FsEntry
  rootDir : List String
  entryName : String

/-- `resolvedEntry`: the absolute path of the entry HTML file. -/
def resolvedEntry (c : ServerCtx) : List String :=
  c.rootDir ++ [c.entryName]

/-- One step of `path.resolve` normalisation on segments: `.` and empty
segments vanish, `..` pops (staying at the filesystem root when empty). -/
def resolveStep (acc : List String) (seg : String) : List String :=
  if seg = "" ∨ seg = "." then acc
  else if seg = ".." then acc.dropLast
  else acc ++ [seg]

/-- `resolve(rootDirResolved, rel)` for an already-normalised absolute
`root`: fold the relative segments over the normalisation step. -/
def resolveFrom (root rel : List String) : List String :=
  rel.foldl resolveStep root

/-- The `isWithinRoot` check: the normalised candidate equals the root,
starts with `rootDirWithSep` (segment form: the root is a proper prefix), or
equals the resolved entry. -/
def withinRoot (c : ServerCtx) (p : List String) : Bool :=
  p == c.rootDir || (c.rootDir.isPrefixOf p && p != c.rootDir) || p == resolvedEntry c

/-- Outcome of the `try` block of one loop iteration, given the current
`attemptSanitized` value: rejected by `isWithinRoot` (403 before any
filesystem access), a response (200 file serve, or 500 when streaming a
directory fails), or an ENOENT.  `accesses` records the paths `stat`ed or
read, in order. -/
inductive AttemptStep where
  | forbidden
  | hit (status : Nat) (accesses : List (List String)) (served : Option (List String))
  | miss (accesses : List (List String))
deriving DecidableEq, Repr

/-- The `candidatePath`/`normalizedCandidate`/`filePath` of one loop
iteration (these coincide in the model because the context's paths are
already normalised): the resolved entry for the bare request, otherwise the
request segments resolved against the root. -/
def candidatePath (c : ServerCtx) (attempt : List String) : List String :=
  if attempt.isEmpty then resolvedEntry c else resolveFrom c.rootDir attempt

/-- One iteration of the server loop body: compute and normalise the
candidate path, check `isWithinRoot`, then `stat`; a directory retries with
`index.html` inside it (a second directory there makes `createReadStream`
fail, surfacing 500). -/
def attemptOnce (c : ServerCtx) (attempt : List String) : AttemptStep :=
  if !withinRoot c (candidatePath c attempt) then .forbidden
  else
    match c.fs (candidatePath c attempt) with
    | .file => .hit 200 [candidatePath c attempt] (some (candidatePath c attempt))
    | .dir =>
      match c.fs (candidatePath c attempt ++ ["index.html"]) with
      | .file => .hit 200 [candidatePath c attempt, candidatePath c attempt ++ ["index.html"]]
          (some (candidatePath c attempt ++ ["index.html"]))
      | .dir => .hit 500 [candidatePath c attempt, candidatePath c attempt ++ ["index.html"]] none
      | .absent => .miss [candidatePath c attempt, candidatePath c attempt ++ ["index.html"]]
    | .absent => .miss [candidatePath c attempt]

/-- The server's reply to one request: final status, every filesystem path
accessed, every `attemptSanitized` value looked up (in order), and the file
whose contents were served, if any. -/
structure ServerResp where
  status : Nat
  accesses : List (List String)
  lookups : List (List String)
  served : Option (List String)
deriving DecidableEq, Repr

/-- The `while (true)` retry loop of `createStaticEntryServer`'s request
handler, on the sanitized segment list.  On ENOENT the line/column suffix is
stripped and the lookup retried while stripping changes the path; otherwise
404 (500 for the bare entry request).  The source's `visited` set is dead
code — every effective strip strictly shortens the path
(`stripSegs_sumLen_lt`), so no value repeats — and is omitted here. -/
def serveLoop (c : ServerCtx) (attempt : List String) : ServerResp :=
  match attemptOnce c attempt with
  | .forbidden => ⟨403, [], [attempt], none⟩
  | .hit status accesses served => ⟨status, accesses, [attempt], served⟩
  | .miss accesses =>
    if stripSegs attempt = attempt then
      ⟨if attempt.isEmpty then 500 else 404, accesses, [attempt], none⟩
    else
      ⟨(serveLoop c (stripSegs attempt)).status,
        accesses ++ (serveLoop c (stripSegs attempt)).accesses,
        attempt :: (serveLoop c (stripSegs attempt)).lookups,
        (serveLoop c (stripSegs attempt)).served⟩
termination_by sumLen attempt
decreasing_by all_goals exact stripSegs_sumLen_lt attempt (by assumption)

/-- The chain of `attemptSanitized` values the retry loop visits when every
lookup misses: iterate `stripSegs` until it no longer changes the path. -/
def stripChainSegs (attempt : List String) : List (List String) :=
  if stripSegs attempt = attempt then [attempt]
  else attempt :: stripChainSegs (stripSegs attempt)
termination_by sumLen attempt
decreasing_by exact stripSegs_sumLen_lt attempt (by assumption)

/-- The request handler of `createStaticEntryServer`: 405 for methods other
than GET/HEAD, 403 (no filesystem access) when sanitization rejects the
pathname, else the retry loop on the sanitized segments. -/
def handleRequest (c : ServerCtx) (method : String) (pathname : String) : ServerResp :=
  if method ≠ "GET" ∧ method ≠ "HEAD" then ⟨405, [], [], none⟩
  else
    match sanitizeSegments (splitSlash pathname) with
    | none => ⟨403, [], [], none⟩
    | some segs => serveLoop c segs

/-! ### C2 theorems -/

/-- `sanitizePathname`'s segment loop returns `null` exactly when some split
segment is `..`. -/
theorem sanitizeSegments_none_iff (l : List String) :
    sanitizeSegments l = none ↔ ".." ∈ l := by
  induction l with
  | nil => simp [sanitizeSegments]
  | cons seg rest ih =>
    by_cases h1 : seg = "" ∨ seg = "."
    · have hne : (".." : String) ≠ seg := by
        rcases h1 with rfl | rfl <;> decide
      simp [sanitizeSegments, if_pos h1, ih, hne]
    · by_cases h2 : seg = ".."
      · subst h2
        simp [sanitizeSegments, h1]
      · have hne : (".." : String) ≠ seg := fun he => h2 he.symm
        simp [sanitizeSegments, if_neg h1, if_neg h2, ih, hne]

/-- A path passing the `isWithinRoot` check lies below the root directory. -/
theorem withinRoot_prefix (c : ServerCtx) (p : List String)
    (h : withinRoot c p = true) : c.rootDir <+: p := by
  unfold withinRoot at h
  simp only [Bool.or_eq_true, beq_iff_eq, Bool.and_eq_true, bne_iff_ne] at h
  rcases h with (h | ⟨hpre, -⟩) | h
  · subst h
    exact List.prefix_refl _
  · exact List.isPrefixOf_iff_prefix.mp hpre
  · subst h
    exact List.prefix_append _ _

/-- The filesystem paths an `AttemptStep` accessed. -/
def stepAccesses : AttemptStep → List (List String)
  | .forbidden => []
  | .hit _ accesses _ => accesses
  | .miss accesses => accesses

/-- The file an `AttemptStep` served. -/
def stepServed : AttemptStep → Option (List String)
  | .hit _ _ served => served
  | _ => none

/-- Every path one loop iteration accesses or serves lies below the root:
accesses happen only after the `isWithinRoot` check. -/
theorem attemptOnce_within (c : ServerCtx) (attempt : List String) :
    (∀ p ∈ stepAccesses (attemptOnce c attempt), c.rootDir <+: p)
    ∧ (∀ q, stepServed (attemptOnce c attempt) = some q → c.rootDir <+: q) := by
  unfold attemptOnce
  by_cases hw : withinRoot c (candidatePath c attempt) = true
  · have hfile : c.rootDir <+: candidatePath c attempt := withinRoot_prefix c _ hw
    have hidx : c.rootDir <+: (candidatePath c attempt ++ ["index.html"]) :=
      hfile.trans (List.prefix_append _ _)
    rw [if_neg (by simp [hw])]
    rcases hfs : c.fs (candidatePath c attempt) with - | - | -
    · constructor
      · intro p hp
        simp only [stepAccesses, List.mem_singleton] at hp
        exact hp ▸ hfile
      · intro q hq
        simp only [stepServed, Option.some.injEq] at hq
        exact hq ▸ hfile
    · rcases hfs2 : c.fs (candidatePath c attempt ++ ["index.html"]) with - | - | -
      · constructor
        · intro p hp
          simp only [stepAccesses, List.mem_cons, List.mem_singleton,
            List.not_mem_nil, or_false] at hp
          rcases hp with rfl | rfl
          · exact hfile
          · exact hidx
        · intro q hq
          simp only [stepServed, Option.some.injEq] at hq
          exact hq ▸ hidx
      · constructor
        · intro p hp
          simp only [stepAccesses, List.mem_cons, List.mem_singleton,
            List.not_mem_nil, or_false] at hp
          rcases hp with rfl | rfl
          · exact hfile
          · exact hidx
        · intro q hq
          simp [stepServed] at hq
      · constructor
        · intro p hp
          simp only [stepAccesses, List.mem_cons, List.mem_singleton,
            List.not_mem_nil, or_false] at hp
          rcases hp with rfl | rfl
          · exact hfile
          · exact hidx
        · intro q hq
          simp [stepServed] at hq
    · constructor
      · intro p hp
        simp only [stepAccesses, List.mem_singleton] at hp
        exact hp ▸ hfile
      · intro q hq
        simp [stepServed] at hq
  · rw [if_pos (by simp [hw])]
    exact ⟨by simp [stepAccesses], by simp [stepServed]⟩

/-- Unfolding `serveLoop` when the iteration is rejected by `isWithinRoot`. -/
theorem serveLoop_forbidden (c : ServerCtx) (attempt : List String)
    (hstep : attemptOnce c attempt = AttemptStep.forbidden) :
    serveLoop c attempt = ⟨403, [], [attempt], none⟩ := by
  rw [serveLoop, hstep]

/-- Unfolding `serveLoop` when the iteration answers the request. -/
theorem serveLoop_hit (c : ServerCtx) (attempt : List String) (status : Nat)
    (accesses : List (List String)) (served : Option (List String))
    (hstep : attemptOnce c attempt = AttemptStep.hit status accesses served) :
    serveLoop c attempt = ⟨status, accesses, [attempt], served⟩ := by
  rw [serveLoop, hstep]

/-- Unfolding `serveLoop` on an ENOENT iteration. -/
theorem serveLoop_miss (c : ServerCtx) (attempt : List String)
    (accesses : List (List String))
    (hstep : attemptOnce c attempt = AttemptStep.miss accesses) :
    serveLoop c attempt =
      if stripSegs attempt = attempt then
        ⟨if attempt.isEmpty then 500 else 404, accesses, [attempt], none⟩
      else
        ⟨(serveLoop c (stripSegs attempt)).status,
          accesses ++ (serveLoop c (stripSegs attempt)).accesses,
          attempt :: (serveLoop c (stripSegs attempt)).lookups,
          (serveLoop c (stripSegs attempt)).served⟩ := by
  rw [serveLoop, hstep]

/-- Every path the whole retry loop accesses or serves lies below the root
directory. -/
theorem serveLoop_within (c : ServerCtx) (attempt : List String) :
    (∀ p ∈ (serveLoop c attempt).accesses, c.rootDir <+: p)
    ∧ (∀ q, (serveLoop c attempt).served = some q → c.rootDir <+: q) := by
  suffices H : ∀ n attempt, sumLen attempt < n →
      (∀ p ∈ (serveLoop c attempt).accesses, c.rootDir <+: p)
      ∧ (∀ q, (serveLoop c attempt).served = some q → c.rootDir <+: q) from
    H (sumLen attempt + 1) attempt (Nat.lt_succ_self _)
  intro n
  induction n with
  | zero =>
    intro attempt h
    exact absurd h (Nat.not_lt_zero _)
  | succ n ih =>
    intro attempt hlt
    have hone := attemptOnce_within c attempt
    rcases hstep : attemptOnce c attempt with - | ⟨status, accesses, served⟩ | accesses
    · rw [serveLoop_forbidden c attempt hstep]
      exact ⟨by simp, by simp⟩
    · rw [serveLoop_hit c attempt status accesses served hstep]
      rw [hstep] at hone
      simp only [stepAccesses, stepServed] at hone
      exact hone
    · rw [serveLoop_miss c attempt accesses hstep]
      rw [hstep] at hone
      simp only [stepAccesses, stepServed] at hone
      by_cases hfix : stripSegs attempt = attempt
      · rw [if_pos hfix]
        exact ⟨hone.1, by simp⟩
      · rw [if_neg hfix]
        have hlt2 : sumLen (stripSegs attempt) < n := by
          have := stripSegs_sumLen_lt attempt hfix
          omega
        have ih2 := ih (stripSegs attempt) hlt2
        constructor
        · intro p hp
          simp only [List.mem_append] at hp
          rcases hp with hp | hp
          · exact hone.1 p hp
          · exact ih2.1 p hp
        · intro q hq
          exact ih2.2 q hq

/-- C2 (amended): `sanitizePathname` returns `null` exactly when some path
segment is `..`; every GET or HEAD request whose path contains a `..`
segment is answered 403 before any filesystem access; every request with
any other method is answered 405, also before any filesystem access (the
method gate fires ahead of sanitization); and no request is ever served
from, or even accesses, a path outside the served root directory. -/
theorem static_server_traversal_protection :
    (∀ pathname, sanitizePathname pathname = none ↔ ".." ∈ splitSlash pathname)
    ∧ (∀ c method pathname, (method = "GET" ∨ method = "HEAD") →
        ".." ∈ splitSlash pathname →
        (handleRequest c method pathname).status = 403
          ∧ (handleRequest c method pathname).accesses = [])
    ∧ (∀ c method pathname, method ≠ "GET" → method ≠ "HEAD" →
        (handleRequest c method pathname).status = 405
          ∧ (handleRequest c method pathname).accesses = [])
    ∧ (∀ c method pathname,
        (∀ p ∈ (handleRequest c method pathname).accesses, c.rootDir <+: p)
          ∧ (∀ q, (handleRequest c method pathname).served = some q → c.rootDir <+: q)) := by
  have hsan : ∀ pathname, sanitizePathname pathname = none ↔ ".." ∈ splitSlash pathname := by
    intro pathname
    rw [sanitizePathname, Option.map_eq_none']
    exact sanitizeSegments_none_iff _
  refine ⟨hsan, ?_, ?_, ?_⟩
  · rintro c method pathname (rfl | rfl) hmem <;>
    · have hnone : sanitizeSegments (splitSlash pathname) = none :=
        (sanitizeSegments_none_iff _).mpr hmem
      rw [handleRequest, if_neg (by simp), hnone]
      exact ⟨rfl, rfl⟩
  · intro c method pathname h1 h2
    rw [handleRequest, if_pos ⟨h1, h2⟩]
    exact ⟨rfl, rfl⟩
  · intro c method pathname
    rw [handleRequest]
    by_cases hm : method ≠ "GET" ∧ method ≠ "HEAD"
    · rw [if_pos hm]
      exact ⟨by simp, by simp⟩
    · rw [if_neg hm]
      rcases hs : sanitizeSegments (splitSlash pathname) with - | segs
      · exact ⟨by simp, by simp⟩
      · exact serveLoop_within c segs

/-- Witness for C2 (amended): a GET and a HEAD `..` traversal request are
both rejected with 403 and no filesystem access, and a POST request is
rejected with 405 and no filesystem access. -/
theorem static_server_traversal_protection_witness :
    ".." ∈ splitSlash "/../secret"
    ∧ (handleRequest ⟨fun _ => FsEntry.file, ["srv"], "index.html"⟩
        "GET" "/../secret").status = 403
    ∧ (handleRequest ⟨fun _ => FsEntry.file, ["srv"], "index.html"⟩
        "HEAD" "/../secret").status = 403
    ∧ (handleRequest ⟨fun _ => FsEntry.file, ["srv"], "index.html"⟩
        "HEAD" "/../secret").accesses = []
    ∧ (handleRequest ⟨fun _ => FsEntry.file, ["srv"], "index.html"⟩
        "POST" "/../secret").accesses = [] :=
  ⟨by decide,
    (static_server_traversal_protection.2.1 ⟨fun _ => FsEntry.file, ["srv"], "index.html"⟩
      "GET" "/../secret" (Or.inl rfl) (by decide)).1,
    (static_server_traversal_protection.2.1 ⟨fun _ => FsEntry.file, ["srv"], "index.html"⟩
      "HEAD" "/../secret" (Or.inr rfl) (by decide)).1,
    (static_server_traversal_protection.2.1 ⟨fun _ => FsEntry.file, ["srv"], "index.html"⟩
      "HEAD" "/../secret" (Or.inr rfl) (by decide)).2,
    (static_server_traversal_protection.2.2.1 ⟨fun _ => FsEntry.file, ["srv"], "index.html"⟩
      "POST" "/../secret" (by decide) (by decide)).2⟩

/-- C2 counterexample: a POST request whose path contains a `..` segment is
answered 405, not 403 — the GET/HEAD method gate fires before path
sanitization, so not every traversal request receives 403. -/
theorem static_server_post_traversal_counterexample :
    ".." ∈ splitSlash "/../secret"
    ∧ (handleRequest ⟨fun _ => FsEntry.file, ["srv"], "index.html"⟩
        "POST" "/../secret").status = 405
    ∧ ¬ (handleRequest ⟨fun _ => FsEntry.file, ["srv"], "index.html"⟩
        "POST" "/../secret").status = 403 :=
  ⟨by decide, by decide, by decide⟩

/-! ### C3 theorems -/

/-- Unfolding equation of the strip chain. -/
theorem stripChainSegs_eq (attempt : List String) :
    stripChainSegs attempt = if stripSegs attempt = attempt then [attempt]
      else attempt :: stripChainSegs (stripSegs attempt) := by
  rw [stripChainSegs]

/-- The path itself heads its strip chain. -/
theorem stripChainSegs_head_mem (attempt : List String) :
    attempt ∈ stripChainSegs attempt := by
  rw [stripChainSegs_eq]
  split
  · exact List.mem_singleton_self _
  · exact List.mem_cons_self _ _

/-- Stripping never changes whether the segment list is empty. -/
theorem stripSegs_isEmpty (l : List String) :
    (stripSegs l).isEmpty = l.isEmpty := by
  cases l with
  | nil => rfl
  | cons a rest =>
    cases rest with
    | nil => rfl
    | cons b r2 => rfl

/-- C3 (amended): on an ENOENT the source-map style `:line`/`:line:column`
suffix of the last segment is stripped and the lookup retried — and this
strip-and-retry repeats on every further ENOENT until stripping no longer
changes the path, only then giving up with 404 (500 for the bare entry
request).  When every path is absent, the attempted lookups are exactly the
strip chain of the sanitized path, which can be longer than two. -/
theorem static_server_enoent_strip_retry (c : ServerCtx) (attempt : List String)
    (habs : ∀ p, c.fs p = FsEntry.absent)
    (hroot : ∀ l ∈ stripChainSegs attempt, withinRoot c (candidatePath c l) = true) :
    (serveLoop c attempt).lookups = stripChainSegs attempt
    ∧ (serveLoop c attempt).status = (if attempt.isEmpty then 500 else 404)
    ∧ (serveLoop c attempt).served = none := by
  suffices H : ∀ n attempt, sumLen attempt < n →
      (∀ l ∈ stripChainSegs attempt, withinRoot c (candidatePath c l) = true) →
      (serveLoop c attempt).lookups = stripChainSegs attempt
      ∧ (serveLoop c attempt).status = (if attempt.isEmpty then 500 else 404)
      ∧ (serveLoop c attempt).served = none from
    H (sumLen attempt + 1) attempt (Nat.lt_succ_self _) hroot
  intro n
  induction n with
  | zero =>
    intro attempt h _
    exact absurd h (Nat.not_lt_zero _)
  | succ n ih =>
    intro attempt hlt hroot
    have hw : withinRoot c (candidatePath c attempt) = true :=
      hroot attempt (stripChainSegs_head_mem attempt)
    have hstep : attemptOnce c attempt = AttemptStep.miss [candidatePath c attempt] := by
      unfold attemptOnce
      rw [if_neg (by simp [hw]), habs]
    rw [serveLoop_miss c attempt _ hstep]
    by_cases hfix : stripSegs attempt = attempt
    · rw [if_pos hfix, stripChainSegs_eq, if_pos hfix]
      exact ⟨rfl, rfl, rfl⟩
    · rw [if_neg hfix]
      have hlt2 : sumLen (stripSegs attempt) < n := by
        have := stripSegs_sumLen_lt attempt hfix
        omega
      have hroot2 : ∀ l ∈ stripChainSegs (stripSegs attempt),
          withinRoot c (candidatePath c l) = true := by
        intro l hl
        apply hroot
        rw [stripChainSegs_eq, if_neg hfix]
        exact List.mem_cons_of_mem _ hl
      have ih2 := ih (stripSegs attempt) hlt2 hroot2
      refine ⟨?_, ?_, ih2.2.2⟩
      · show attempt :: (serveLoop c (stripSegs attempt)).lookups = stripChainSegs attempt
        conv_rhs => rw [stripChainSegs_eq, if_neg hfix]
        rw [ih2.1]
      · show (serveLoop c (stripSegs attempt)).status = _
        rw [ih2.2.1, stripSegs_isEmpty]

/-- A server context where every path is absent (exercises the ENOENT retry
loop). -/
def allAbsentCtx : ServerCtx :=
  ⟨fun _ => FsEntry.absent, ["srv"], "index.html"⟩

/-- Witness for C3 (amended): `app.js:1` is looked up, stripped once to
`app.js`, looked up again, then 404. -/
theorem static_server_enoent_strip_retry_witness :
    (∀ p, allAbsentCtx.fs p = FsEntry.absent)
    ∧ (serveLoop allAbsentCtx ["app.js:1"]).lookups = stripChainSegs ["app.js:1"]
    ∧ (serveLoop allAbsentCtx ["app.js:1"]).status = 404 := by
  have hchain : stripChainSegs ["app.js:1"] = [["app.js:1"], ["app.js"]] := by
    rw [stripChainSegs_eq, if_neg (by decide), stripChainSegs_eq, if_pos (by decide)]
    decide
  have h := static_server_enoent_strip_retry allAbsentCtx ["app.js:1"] (fun p => rfl)
    (by
      rw [hchain]
      intro l hl
      rcases List.mem_cons.mp hl with rfl | hl
      · decide
      · rcases List.mem_singleton.mp hl with rfl
        decide)
  exact ⟨fun p => rfl, h.1, by rw [h.2.1]; rfl⟩

/-- C3 counterexample: with every path absent, the request `app.js:1:2:3`
is looked up three times (`app.js:1:2:3`, then `app.js:1`, then `app.js`)
before the 404 — the lookup is not limited to two attempts. -/
theorem static_server_retry_counterexample :
    (serveLoop allAbsentCtx ["app.js:1:2:3"]).lookups
      = [["app.js:1:2:3"], ["app.js:1"], ["app.js"]]
    ∧ ¬ (serveLoop allAbsentCtx ["app.js:1:2:3"]).lookups.length ≤ 2
    ∧ (serveLoop allAbsentCtx ["app.js:1:2:3"]).status = 404 := by
  have a1 : attemptOnce allAbsentCtx ["app.js:1:2:3"]
      = AttemptStep.miss [["srv", "app.js:1:2:3"]] := by decide
  have a2 : attemptOnce allAbsentCtx ["app.js:1"]
      = AttemptStep.miss [["srv", "app.js:1"]] := by decide
  have a3 : attemptOnce allAbsentCtx ["app.js"]
      = AttemptStep.miss [["srv", "app.js"]] := by decide
  have e1 : stripSegs ["app.js:1:2:3"] = ["app.js:1"] := by decide
  have e2 : stripSegs ["app.js:1"] = ["app.js"] := by decide
  have s3 : serveLoop allAbsentCtx ["app.js"]
      = ⟨404, [["srv", "app.js"]], [["app.js"]], none⟩ := by
    rw [serveLoop_miss _ _ _ a3, if_pos (by decide)]
    rfl
  have s2 : serveLoop allAbsentCtx ["app.js:1"]
      = ⟨404, [["srv", "app.js:1"], ["srv", "app.js"]],
          [["app.js:1"], ["app.js"]], none⟩ := by
    rw [serveLoop_miss _ _ _ a2, if_neg (by decide), e2, s3]
    rfl
  have s1 : serveLoop allAbsentCtx ["app.js:1:2:3"]
      = ⟨404, [["srv", "app.js:1:2:3"], ["srv", "app.js:1"], ["srv", "app.js"]],
          [["app.js:1:2:3"], ["app.js:1"], ["app.js"]], none⟩ := by
    rw [serveLoop_miss _ _ _ a1, if_neg (by decide), e1, s2]
    rfl
  refine ⟨by rw [s1], by rw [s1]; decide, by rw [s1]⟩

/-! ### Frame-sequence comparison (`compareFrameSequences`) -/

/-- Lexicographic comparison of character lists by code point (the default
JS `Array.prototype.sort` comparator on these ASCII frame filenames). -/
def charListLt : List Char → List Char → Bool
  | [], [] => false
  | [], _ :: _ => true
  | _ :: _, [] => false
  | a :: as, b :: bs =>
    if a = b then charListLt as bs else decide (a.toNat < b.toNat)

/-- String order used by `files.sort()`. -/
def strLtB (a b : String) : Bool :=
  charListLt a.data b.data

/-- Stable insertion of one filename into a sorted list. -/
def insertSorted (s : String) : List String → List String
  | [] => [s]
  | t :: rest => if strLtB t s then t :: insertSorted s rest else s :: t :: rest

/-- `files.sort()`: lexicographically sorted copy. -/
def sortStrings : List String → List String
  | [] => []
  | s :: rest => insertSorted s (sortStrings rest)

/-- `file.toLowerCase().endsWith(".png")`. -/
def endsWithPng (file : String) : Bool :=
  (".png".data.reverse).isPrefixOf (lowerChars file).reverse

/-- `collectPngs`: list the directory, keep `*.png` (case-insensitive),
sorted. -/
def collectPngs (listing : List String) : List String :=
  sortStrings (listing.filter endsWithPng)

/-- Inputs of `compareFrameSequences`: the two directory listings, the
decoded image for each directory/filename, the optional diff directory and
threshold, and the perceptual-diff black box (`pixelmatch`, abstracted as a
function of the two images and the threshold). -/
structure CompareEnv where
  actualListing : List String
  baselineListing : List String
  decodeActual : String → PngImage
  decodeBaseline : String → PngImage
  diffDir : Option String
  threshold : Option ℚ
  pixelmatchFn : PngImage → PngImage → ℚ → Nat

/-- `FrameMismatch` from the source. -/
structure FrameMismatch where
  frame : String
  diffPixels : Nat
  totalPixels : Nat
  mismatchRatio : ℚ
  diffPath : Option String
deriving DecidableEq, Repr

/-- `RegressionSummary` from the source. -/
structure RegressionSummary where
  diffs : List FrameMismatch
  totalCompared : Nat
  maxMismatch : ℚ
  averageMismatch : ℚ
  missingInActual : List String
  missingInBaseline : List String
deriving DecidableEq, Repr

/-- `baselineFiles.filter((file) => actualSet.has(file))`. -/
def pngIntersection (actualListing baselineListing : List String) : List String :=
  (collectPngs baselineListing).filter (fun file => (collectPngs actualListing).contains file)

/-- `baselineFiles.filter((file) => !actualSet.has(file))`. -/
def pngMissingInActual (actualListing baselineListing : List String) : List String :=
  (collectPngs baselineListing).filter (fun file => !(collectPngs actualListing).contains file)

/-- `actualFiles.filter((file) => !baselineSet.has(file))`. -/
def pngMissingInBaseline (actualListing baselineListing : List String) : List String :=
  (collectPngs actualListing).filter (fun file => !(collectPngs baselineListing).contains file)

/-- `baselinePng.width !== actualPng.width || baselinePng.height !==
actualPng.height` for one intersected filename. -/
def dimensionMismatchB (env : CompareEnv) (file : String) : Bool :=
  ((env.decodeBaseline file).width != (env.decodeActual file).width)
    || ((env.decodeBaseline file).height != (env.decodeActual file).height)

/-- The body of the comparison loop for one intersected filename: decode
both images, throw on a dimension mismatch, otherwise run the perceptual
diff (threshold default 0.1) and build the `FrameMismatch` (with a diff
image path when a diff directory was supplied and pixels differ). -/
def comparePair (env : CompareEnv) (file : String) : Except String FrameMismatch :=
  if dimensionMismatchB env file then
    Except.error ("Frame size mismatch for " ++ file)
  else
    let baselinePng := env.decodeBaseline file
    let actualPng := env.decodeActual file
    let diffPixels := env.pixelmatchFn actualPng baselinePng (env.threshold.getD (1 / 10))
    let diffPath : Option String :=
      match env.diffDir with
      | some d => if 0 < diffPixels then some (joinPath d file) else none
      | none => none
    let totalPixels := baselinePng.width * baselinePng.height
    Except.ok ⟨file, diffPixels, totalPixels, (diffPixels : ℚ) / (totalPixels : ℚ), diffPath⟩

/-- The `for (const file of intersection)` loop: sequential, aborting the
whole comparison at the first failure. -/
def compareLoop (env : CompareEnv) : List String → Except String (List FrameMismatch)
  | [] => Except.ok []
  | file :: rest =>
    match comparePair env file with
    | .error e => .error e
    | .ok d =>
      match compareLoop env rest with
      | .error e => .error e
      | .ok ds => .ok (d :: ds)

/-- `compareFrameSequences`: intersect the sorted listings, diff every
common frame (any dimension mismatch aborts the whole comparison), then
aggregate the summary with the two one-sided difference sets. -/
def compareFrameSequences (env : CompareEnv) : Except String RegressionSummary :=
  match compareLoop env (pngIntersection env.actualListing env.baselineListing) with
  | .error e => .error e
  | .ok diffs =>
    Except.ok
      ⟨diffs, diffs.length,
        if diffs.length = 0 then 0 else (diffs.map FrameMismatch.mismatchRatio).foldl max 0,
        if diffs.length = 0 then 0
          else (diffs.map FrameMismatch.mismatchRatio).sum / (diffs.length : ℚ),
        pngMissingInActual env.actualListing env.baselineListing,
        pngMissingInBaseline env.actualListing env.baselineListing⟩

/-! ### C4 theorem -/

/-- The comparison loop fails at the first dimension-mismatched filename. -/
theorem compareLoop_first_mismatch (env : CompareEnv) :
    ∀ files : List String, (∃ f ∈ files, dimensionMismatchB env f = true) →
      ∃ f ∈ files, dimensionMismatchB env f = true
        ∧ compareLoop env files = Except.error ("Frame size mismatch for " ++ f) := by
  intro files
  induction files with
  | nil =>
    rintro ⟨f, hf, -⟩
    exact absurd hf (List.not_mem_nil f)
  | cons a rest ih =>
    intro hex
    by_cases ha : dimensionMismatchB env a = true
    · exact ⟨a, List.mem_cons_self _ _, ha, by simp [compareLoop, comparePair, ha]⟩
    · have hrest : ∃ f ∈ rest, dimensionMismatchB env f = true := by
        rcases hex with ⟨f, hf, hdim⟩
        rcases List.mem_cons.mp hf with rfl | hf
        · exact absurd hdim ha
        · exact ⟨f, hf, hdim⟩
      rcases ih hrest with ⟨f, hf, hdim, hloop⟩
      refine ⟨f, List.mem_cons_of_mem _ hf, hdim, ?_⟩
      simp only [compareLoop, comparePair, ha, if_false, Bool.false_eq_true, hloop]

/-- C4: if any filename present in both directories decodes to images of
differing dimensions, the entire comparison fails with an error identifying
that filename, and no `RegressionSummary` — not even a partial one — is
returned. -/
theorem compare_dimension_mismatch_fatal (env : CompareEnv)
    (h : ∃ file ∈ pngIntersection env.actualListing env.baselineListing,
      dimensionMismatchB env file = true) :
    ∃ file, file ∈ pngIntersection env.actualListing env.baselineListing
      ∧ dimensionMismatchB env file = true
      ∧ compareFrameSequences env = Except.error ("Frame size mismatch for " ++ file)
      ∧ ∀ summary, compareFrameSequences env ≠ Except.ok summary := by
  rcases compareLoop_first_mismatch env _ h with ⟨f, hf, hdim, hloop⟩
  refine ⟨f, hf, hdim, ?_, ?_⟩
  · unfold compareFrameSequences
    rw [hloop]
  · intro summary
    unfold compareFrameSequences
    rw [hloop]
    simp

/-- A comparison environment whose single common frame decodes with
mismatched widths. -/
def c4env : CompareEnv :=
  ⟨["a.png"], ["a.png"], fun _ => ⟨2, 2, []⟩, fun _ => ⟨1, 2, []⟩,
    none, none, fun _ _ _ => 0⟩

/-- Witness for C4 at `c4env`. -/
theorem compare_dimension_mismatch_fatal_witness :
    ∃ file, file ∈ pngIntersection c4env.actualListing c4env.baselineListing
      ∧ dimensionMismatchB c4env file = true
      ∧ compareFrameSequences c4env = Except.error ("Frame size mismatch for " ++ file)
      ∧ ∀ summary, compareFrameSequences c4env ≠ Except.ok summary :=
  compare_dimension_mismatch_fatal c4env ⟨"a.png", by decide, by decide⟩

/-! ### C5 theorem -/

/-- C5: the comparator's cardinality bookkeeping is symmetric — the
missing-in-actual list of comparing listings (A, B) is exactly the
missing-in-baseline list of comparing (B, A) and vice versa, and a
successful comparison returns precisely those lists in its summary. -/
theorem compare_missing_sets_symmetric (A B : List String) :
    pngMissingInActual A B = pngMissingInBaseline B A
    ∧ pngMissingInBaseline A B = pngMissingInActual B A
    ∧ (∀ env summary, env.actualListing = A → env.baselineListing = B →
        compareFrameSequences env = Except.ok summary →
        summary.missingInActual = pngMissingInActual A B
          ∧ summary.missingInBaseline = pngMissingInBaseline A B) := by
  refine ⟨rfl, rfl, ?_⟩
  rintro env summary rfl rfl hok
  unfold compareFrameSequences at hok
  rcases hloop : compareLoop env
      (pngIntersection env.actualListing env.baselineListing) with e | diffs
  · rw [hloop] at hok
    exact absurd hok (by simp)
  · rw [hloop] at hok
    obtain rfl : summary = _ := (by simpa using hok.symm)
    exact ⟨rfl, rfl⟩

/-- A comparison environment with one frame on each side and no overlap. -/
def c5env : CompareEnv :=
  ⟨["a.png"], ["b.png"], fun _ => ⟨1, 1, []⟩, fun _ => ⟨1, 1, []⟩,
    none, none, fun _ _ _ => 0⟩

/-- Witness for C5 at `c5env`. -/
theorem compare_missing_sets_symmetric_witness :
    compareFrameSequences c5env = Except.ok ⟨[], 0, 0, 0, ["b.png"], ["a.png"]⟩
    ∧ (⟨[], 0, 0, 0, ["b.png"], ["a.png"]⟩ : RegressionSummary).missingInActual
        = pngMissingInActual ["a.png"] ["b.png"]
    ∧ (⟨[], 0, 0, 0, ["b.png"], ["a.png"]⟩ : RegressionSummary).missingInBaseline
        = pngMissingInBaseline ["a.png"] ["b.png"] := by
  have hok : compareFrameSequences c5env
      = Except.ok ⟨[], 0, 0, 0, ["b.png"], ["a.png"]⟩ := by
    rfl
  have h := (compare_missing_sets_symmetric ["a.png"] ["b.png"]).2.2 c5env
    ⟨[], 0, 0, 0, ["b.png"], ["a.png"]⟩ rfl rfl hok
  exact ⟨hok, h.1, h.2⟩

/-! ### Release manifest builder (`writeReleaseManifest`) -/

/-- A frame artifact handed to the manifest builder (`FrameRenderResult`),
with its absolute path in segment form. -/
structure ManifestInputFrame where
  frame : Nat
  path : List String
deriving DecidableEq, Repr

/-- `ReleaseManifestOptions` (the `plugins`/`extra` passthrough fields are
not involved in the claims and are omitted). -/
structure ReleaseManifestOptions where
  frames : List ManifestInputFrame
  videoFile : List String
  fps : Nat
  durationMs : Nat
  seed : String
  outputPath : List String
deriving DecidableEq, Repr

/-- What the abstract disk knows about a file: byte size (`stat(...).size`)
and content hash (`computeFileHash`). -/
structure DiskMeta where
  size : List String → Nat
  hash : List String → String

/-- The manifest's video descriptor. -/
structure ManifestArtifact where
  path : List String
  hash : String
  size : Nat
deriving DecidableEq, Repr

/-- One entry of the manifest's `frames` array. -/
structure ManifestFrameEntry where
  frame : Nat
  path : List String
  hash : String
  size : Nat
deriving DecidableEq, Repr

/-- `ReleaseManifest` from the source. -/
structure ReleaseManifest where
  version : String
  generatedAt : String
  fps : Nat
  durationMs : Nat
  totalFrames : Nat
  seed : String
  video : ManifestArtifact
  frames : List ManifestFrameEntry
deriving DecidableEq, Repr

/-- Longest common prefix length of two segment paths. -/
def commonPrefixLength : List String → List String → Nat
  | a :: as, b :: bs => if a = b then commonPrefixLength as bs + 1 else 0
  | _, _ => 0

/-- `path.relative(fromDir, toPath)` on normalised absolute segment paths:
climb out of the unshared tail of `fromDir`, then descend into `toPath`. -/
def relativePath (fromDir toPath : List String) : List String :=
  List.replicate (fromDir.length - commonPrefixLength fromDir toPath) ".."
    ++ toPath.drop (commonPrefixLength fromDir toPath)

/-- `writeReleaseManifest`: hash and stat every frame (in capture order) and
the video, then serialize the manifest with all paths relative to the
manifest's own directory (`manifestDir = dirname(outputPath)`). -/
def writeReleaseManifest (disk : DiskMeta) (now : String)
    (o : ReleaseManifestOptions) : ReleaseManifest :=
  ⟨"1.0.0", now, o.fps, o.durationMs, o.frames.length, o.seed,
    ⟨relativePath o.outputPath.dropLast o.videoFile,
      disk.hash o.videoFile, disk.size o.videoFile⟩,
    o.frames.map (fun f =>
      ⟨f.frame, relativePath o.outputPath.dropLast f.path,
        disk.hash f.path, disk.size f.path⟩)⟩

/-! ### C9 theorem -/

/-- C9: the manifest's `totalFrames` equals the input frame count; the
frames array has one entry per input record, in the same order, with the
frame index copied unchanged; every frame path and the video path are
expressed relative to the directory containing the manifest's own
`outputPath`; and every recorded size is the file's byte size on disk. -/
theorem write_release_manifest_spec (disk : DiskMeta) (now : String)
    (o : ReleaseManifestOptions) :
    (writeReleaseManifest disk now o).totalFrames = o.frames.length
    ∧ (writeReleaseManifest disk now o).frames.length = o.frames.length
    ∧ (writeReleaseManifest disk now o).frames.map ManifestFrameEntry.frame
        = o.frames.map ManifestInputFrame.frame
    ∧ (writeReleaseManifest disk now o).frames
        = o.frames.map (fun f =>
            ⟨f.frame, relativePath o.outputPath.dropLast f.path,
              disk.hash f.path, disk.size f.path⟩)
    ∧ (writeReleaseManifest disk now o).video.path
        = relativePath o.outputPath.dropLast o.videoFile
    ∧ (writeReleaseManifest disk now o).video.size = disk.size o.videoFile := by
  refine ⟨rfl, by simp [writeReleaseManifest], ?_, rfl, rfl, rfl⟩
  show (o.frames.map (fun f =>
      (⟨f.frame, relativePath o.outputPath.dropLast f.path,
        disk.hash f.path, disk.size f.path⟩ : ManifestFrameEntry))).map
      ManifestFrameEntry.frame = o.frames.map ManifestInputFrame.frame
  rw [List.map_map]
  rfl
